import Mathlib

/-!
A shallow embedding of the ElasticBLAST AWS job-lifecycle orchestration core
(`src/elastic_blast/aws.py` with helpers from `src/elb/util.py`), together
with theorems about its submission, status-reconciliation, ledger and
infrastructure-lifecycle behavior.

Cloud backends (boto3 CloudFormation / Batch / S3) are modelled as explicit
inputs: the outcome of each remote call is a parameter of the embedded
function, and the calls issued are recorded in an explicit event trace.
-/

/-- Modelled from the spec: the error-code categories of the repository's
`constants` module (not present under `src/`); §7 of the spec requires the
categories to be machine-checkable and distinct, which the distinct
constructors provide. -/
inductive ErrCode where
  | INPUT_ERROR
  | CLUSTER_ERROR
  | PERMISSIONS_ERROR
  | DEPENDENCY_ERROR
  | TIMEOUT_ERROR
  | BLASTDB_ERROR
  deriving DecidableEq, Repr

/-- `UserReportError` from `src/elb/util.py`: an error category (exit code)
plus a human-readable message. -/
structure UserReportError where
  returncode : ErrCode
  message : String
  deriving DecidableEq, Repr

/-- Native AWS Batch job states, `AWS_BATCH_JOB_STATES` in
`src/elastic_blast/aws.py` line 64. -/
inductive JobState where
  | SUBMITTED
  | PENDING
  | RUNNABLE
  | STARTING
  | RUNNING
  | SUCCEEDED
  | FAILED
  deriving DecidableEq, Repr

/-- The ordered list of native states, order reflects state transitions
(`aws.py` line 64). -/
def AWS_BATCH_JOB_STATES : List JobState :=
  [.SUBMITTED, .PENDING, .RUNNABLE, .STARTING, .RUNNING, .SUCCEEDED, .FAILED]

/-- Exceptions raised by boto3 calls: `NoCredentialsError`, or `ClientError`
carrying the response error code (`err.response['Error']['Code']`). -/
inductive AwsErr where
  | noCredentialsError (msg : String)
  | clientError (code : String) (msg : String)
  deriving DecidableEq, Repr

/-- The `handle_aws_error` decorator (`aws.py` lines 66-81): reclassifies
backend exceptions into `UserReportError` categories before they leave the
core. -/
def handle_aws_error {α : Type} (r : Except AwsErr α) : Except UserReportError α :=
  match r with
  | .ok a => .ok a
  | .error (.noCredentialsError msg) => .error ⟨.PERMISSIONS_ERROR, msg⟩
  | .error (.clientError code msg) =>
      if code = "AccessDenied" ∨ code = "RequestExpired" ∨ code = "ExpiredToken"
          ∨ code = "ExpiredTokenException"
      then .error ⟨.PERMISSIONS_ERROR, msg⟩
      else .error ⟨.CLUSTER_ERROR, msg⟩

/-- Modelled from the spec: `AWS_MAX_JOBNAME_LENGTH` comes from the missing
`constants` module; the AWS Batch job-name length limit is 128 characters. -/
def AWS_MAX_JOBNAME_LENGTH : Nat := 128

/-- Python word characters under `re.ASCII`: `[A-Za-z0-9_]`. -/
def isPyWordChar (c : Char) : Bool :=
  (c ≥ 'a' && c ≤ 'z') || (c ≥ 'A' && c ≤ 'Z') || (c ≥ '0' && c ≤ '9') || c = '_'

/-- Python `str.strip` whitespace set (ASCII part). -/
def isPySpace (c : Char) : Bool :=
  c = ' ' || c = '\t' || c = '\n' || c = '\x0d' || c = '\x0b' || c = '\x0c'

/-- Python `str.strip`: drop leading and trailing whitespace. -/
def pyStrip (s : String) : String :=
  String.mk ((s.toList.dropWhile isPySpace).reverse.dropWhile isPySpace).reverse

/-- `sanitize_aws_batch_job_name` (`src/elb/util.py` lines 417-419):
`re.sub(r'[\W\-]', '-', input_name.strip(), flags=re.ASCII)[:AWS_MAX_JOBNAME_LENGTH]`,
i.e. replace every character that is not an ASCII word character with a
hyphen, then truncate to the maximum job-name length. -/
def sanitize_aws_batch_job_name (input_name : String) : String :=
  String.mk
    (((pyStrip input_name).toList.map
        (fun c => if isPyWordChar c && c ≠ '-' then c else '-')).take
      AWS_MAX_JOBNAME_LENGTH)

/-- The job-name f-string from `submit` (`aws.py` line 566):
`f'elasticblast-{self.owner}-{prog}-batch-{self.db_label}-job-{i}'`. -/
def jobName (owner prog dbLabel : String) (i : Nat) : String :=
  "elasticblast-" ++ owner ++ "-" ++ prog ++ "-batch-" ++ dbLabel ++ "-job-" ++ toString i

/-- JSON values stored in the results bucket, as produced by
`json.dumps`/consumed by `json.load`; the ledger only ever holds a JSON
array of string job identifiers, so that is the shape modelled.
Serialization round-trip is modelled by identity on this tree. -/
inductive JsonVal where
  | str (s : String)
  | arr (l : List String)
  deriving DecidableEq, Repr

/-- Trace of backend calls issued by the embedded operations. -/
inductive Event where
  | submitJob (name : String) (queryBatch : String) (splitPart : Nat)
  | putBlob (path : String) (body : JsonVal)
  | getBlob (path : String)
  | listJobs (st : JobState) (page : Nat)
  | describeJobs (ids : List String)
  | createStack (name : String)
  deriving DecidableEq, Repr

/-- Modelled from the spec: `ELB_METADATA_DIR` from the missing `constants`
module (fixed metadata directory under the results location). -/
def ELB_METADATA_DIR : String := "metadata"

/-- Modelled from the spec: `ELB_AWS_JOB_IDS` from the missing `constants`
module (fixed file name of the Job ID Ledger blob). -/
def ELB_AWS_JOB_IDS : String := "job-ids.json"

/-- The fixed ledger blob path
`f'{self.results_bucket}/{ELB_METADATA_DIR}/{ELB_AWS_JOB_IDS}'`
(`aws.py` line 622). -/
def ledgerPath (resultsBucket : String) : String :=
  resultsBucket ++ "/" ++ ELB_METADATA_DIR ++ "/" ++ ELB_AWS_JOB_IDS

/-- Blob store of the results bucket: path to stored JSON value. -/
def Store : Type := String → Option JsonVal

/-- Apply the mutating events of a trace to a blob store (`put_object`
overwrites, last writer wins). -/
def applyEvents (store : Store) : List Event → Store
  | [] => store
  | .putBlob p body :: rest => applyEvents (fun q => if q = p then some body else store q) rest
  | _ :: rest => applyEvents store rest

/-- Configuration fields of `ElasticBlastAws` consumed by `submit`. -/
structure SubmitConfig where
  dryRun : Bool
  owner : String
  prog : String
  dbLabel : String
  resultsBucket : String
  noSearch : Bool
  cloudQuerySplit : Bool
  deriving DecidableEq, Repr

/-- The submission loop of `submit` (`aws.py` lines 563-589): for every
query batch at index `i`, in dry-run only log; otherwise call
`batch.submit_job` (the backend returns job id `idOf i`) and append the
returned id to `job_ids`. Returns the event trace and the in-memory
`job_ids` list. -/
def submitLoop (cfg : SubmitConfig) (idOf : Nat → String) :
    Nat → List String → List Event × List String
  | _, [] => ([], [])
  | i, q :: rest =>
    let (evs, ids) := submitLoop cfg idOf (i + 1) rest
    if cfg.dryRun then (evs, ids)
    else (.submitJob (jobName cfg.owner cfg.prog cfg.dbLabel i) q i :: evs, idOf i :: ids)

/-- `upload_job_ids` (`aws.py` lines 620-624): serialize the in-memory job-id
list as a JSON array and put it at the fixed metadata path. -/
def upload_job_ids (cfg : SubmitConfig) (jobIds : List String) : Event :=
  .putBlob (ledgerPath cfg.resultsBucket) (.arr jobIds)

/-- `submit` (`aws.py` lines 513-594): reset `job_ids`, truncate the batch
list to 100 when `ELB_NO_SEARCH` is set together with cloud query split,
run the submission loop, and, when not in dry-run, upload the job ids to
the ledger after all units are submitted. -/
def submit (cfg : SubmitConfig) (query_batches : List String) (idOf : Nat → String) :
    List Event × List String :=
  let qbs := if cfg.noSearch && cfg.cloudQuerySplit then query_batches.take 100 else query_batches
  let (evs, ids) := submitLoop cfg idOf 0 qbs
  if cfg.dryRun then (evs, ids)
  else (evs ++ [upload_job_ids cfg ids], ids)

/-- The names of the jobs dispatched in a trace. -/
def submittedNames (tr : List Event) : List String :=
  tr.filterMap (fun e => match e with | .submitJob n _ _ => some n | _ => none)

/-- The normalized 4-bucket status tally returned by `check_status`. -/
structure StatusCounts where
  pending : Nat
  running : Nat
  succeeded : Nat
  failed : Nat
  deriving DecidableEq, Repr

/-- A job summary as returned by `batch.list_jobs` (the fields the embedded
operations consume: `jobId` and `status`). -/
structure JobSummary where
  jobId : String
  status : JobState
  deriving DecidableEq, Repr

/-- Pages of job summaries returned by successive `list_jobs` calls for one
native state (continuation-token pagination). -/
def Pages : Type := JobState → List (List JobSummary)

/-- All summaries returned for one state, every page followed. -/
def statePages (pages : Pages) (st : JobState) : List JobSummary :=
  (pages st).join

/-- All summaries listed for the queue, iterating native states in
transition order (`AWS_BATCH_JOB_STATES`), each state fully paginated. -/
def allListed (pages : Pages) : List JobSummary :=
  (AWS_BATCH_JOB_STATES.map (statePages pages)).join

/-- The `list_jobs` calls issued when scanning the whole queue: at least one
call per state, plus one call per continuation token. -/
def listJobsTrace (pages : Pages) : List Event :=
  (AWS_BATCH_JOB_STATES.map
    (fun st => (List.range (max (pages st).length 1)).map (Event.listJobs st))).join

/-- Key insertion order of a Python `dict` built by repeated assignment:
first occurrence of each key keeps its position, later assignments do not
move it. -/
def pyDictKeys (seen : List String) : List String → List String
  | [] => []
  | x :: xs => if x ∈ seen then pyDictKeys seen xs else x :: pyDictKeys (x :: seen) xs

/-- `get_job_ids` (`aws.py` lines 597-617): list all jobs in the queue for
every native state, following continuation tokens, collecting job ids as
keys of a dict (de-duplication by identity, first-occurrence order). -/
def get_job_ids (pages : Pages) : List String :=
  pyDictKeys [] ((allListed pages).map JobSummary.jobId)

/-- The trace of calls made by the not-found recovery branch of
`_load_job_ids_from_aws` (`aws.py` lines 665-673): the failed download,
the full queue scan of `get_job_ids`, and the `upload_job_ids` re-upload
of the recovered list. -/
def fallbackTrace (pages : Pages) (path : String) : List Event :=
  .getBlob path :: (listJobsTrace pages ++ [.putBlob path (.arr (get_job_ids pages))])

/-- Body of `_load_job_ids_from_aws`, with the download outcome `dl` as a
parameter: on success parse the ledger; on a `ClientError` with code
`'404'` recover the ids from the queue and re-upload them (the calls made
are `fallbackTrace`); any other error propagates. -/
def load_job_ids_from_aws (dl : Except AwsErr (List String)) (pages : Pages)
    (path : String) : Except AwsErr (List String × List Event) :=
  match dl with
  | .ok ids => .ok (ids, [.getBlob path])
  | .error (.clientError code msg) =>
      if code = "404" then .ok (get_job_ids pages, fallbackTrace pages path)
      else .error (.clientError code msg)
  | .error e => .error e

/-- Chunking with explicit fuel; with fuel at least the list length this is
the sequence of slices `l[i:i+100]` for `i in range(0, len(l), 100)`. -/
def chunksAux {α : Type} : Nat → List α → List (List α)
  | _, [] => []
  | 0, _ :: _ => []
  | fuel + 1, x :: xs => ((x :: xs).take 100) :: chunksAux fuel ((x :: xs).drop 100)

/-- The batches of at most `JOB_BATCH_NUM = 100` job ids passed to
`describe_jobs` (`aws.py` lines 690-692). -/
def chunks100 {α : Type} (l : List α) : List (List α) :=
  chunksAux l.length l

/-- The per-native-state tallies of `_check_status` (`aws.py` lines
693-695): for each describe batch, count jobs whose status equals `st`, and
sum over batches. -/
def nativeCount (batches : List (List JobState)) (st : JobState) : Nat :=
  (batches.map (fun b => b.countP (· == st))).sum

/-- The bucketed counts computed by `_check_status` (`aws.py` lines
689-703): describe tracked jobs in batches of 100, tally native states, and
map them onto the four normalized buckets. -/
def describeCounts (jobIds : List String) (stateOf : String → JobState) : StatusCounts :=
  let batches := (chunks100 jobIds).map (fun b => b.map stateOf)
  { pending := nativeCount batches .SUBMITTED + nativeCount batches .PENDING
      + nativeCount batches .RUNNABLE + nativeCount batches .STARTING
    running := nativeCount batches .RUNNING
    succeeded := nativeCount batches .SUCCEEDED
    failed := nativeCount batches .FAILED }

/-- The `describe_jobs` calls issued by `_check_status`. -/
def describeTrace (jobIds : List String) : List Event :=
  (chunks100 jobIds).map Event.describeJobs

/-- Python dict assignment `jobs[jobId] = summary`: an existing key keeps
its position but its value is overwritten; a new key is appended. -/
def upsert (m : List (String × JobState)) (k : String) (v : JobState) :
    List (String × JobState) :=
  if m.any (fun p => p.1 == k) then m.map (fun p => if p.1 == k then (k, v) else p)
  else m ++ [(k, v)]

/-- The `jobs` dict built by `_check_status_extended` (`aws.py` lines
709-724): every listed summary is inserted keyed by job id; a job listed in
several states keeps the value from the last listing. -/
def jobsDict (pages : Pages) : List (String × JobState) :=
  (allListed pages).foldl (fun m j => upsert m j.jobId j.status) []

/-- `pending_set` of `_check_status_extended` (`aws.py` line 727). -/
def pending_set : List JobState := [.SUBMITTED, .PENDING, .RUNNABLE, .STARTING]

/-- Bucket tally of `_check_status_extended` (`aws.py` lines 728-733):
one count per job in the dict, bucketed by its (last listed) native state. -/
def extendedCounts (entries : List (String × JobState)) : StatusCounts :=
  { pending := entries.countP (fun p => pending_set.contains p.2)
    running := entries.countP (fun p => p.2 == .RUNNING)
    succeeded := entries.countP (fun p => p.2 == .SUCCEEDED)
    failed := entries.countP (fun p => p.2 == .FAILED) }

/-- The bucket-header lines of the extended report (`aws.py` lines
747-753); the per-job detail blocks use summary fields (`jobArn`,
`container`, timestamps) outside the modelled summary and are elided. -/
def extendedReport (c : StatusCounts) : String :=
  "Pending " ++ toString c.pending ++ "\n" ++ "Running " ++ toString c.running ++ "\n"
    ++ "Succeeded " ++ toString c.succeeded ++ "\n" ++ "Failed " ++ toString c.failed

/-- `_check_status_extended` (`aws.py` lines 706-753): list every job in
the queue across all native states (paginated), de-duplicate by id keeping
the most recent state, and tally buckets from the resulting dict; the
tracked job-id list and the ledger are not consulted. -/
def check_status_extended (pages : Pages) : StatusCounts × String × List Event :=
  (extendedCounts (jobsDict pages), extendedReport (extendedCounts (jobsDict pages)),
    listJobsTrace pages)

/-- `_check_status` (`aws.py` lines 675-704): dry-run returns the empty
(all-zero) tally with no calls; `extended` delegates to
`_check_status_extended`; otherwise resolve the job-id list (from memory,
else ledger, else queue listing) and tally `describe_jobs` results in
batches of 100. Returns counts, report, the resulting in-memory job-id
list, and the trace of backend calls. -/
def bodyCheckStatus (dryRun extended : Bool) (jobIds : List String)
    (dl : Except AwsErr (List String)) (pages : Pages)
    (stateOf : String → JobState) (path : String) :
    Except AwsErr (StatusCounts × String × List String × List Event) :=
  if dryRun then .ok (⟨0, 0, 0, 0⟩, "", jobIds, [])
  else if extended then
    let (c, rep, tr) := check_status_extended pages
    .ok (c, rep, jobIds, tr)
  else
    match (if jobIds.isEmpty then load_job_ids_from_aws dl pages path
           else .ok (jobIds, [])) with
    | .error e => .error e
    | .ok (ids, tr) => .ok (describeCounts ids stateOf, "", ids, tr ++ describeTrace ids)

/-- `check_status` via the `handle_aws_error` decorator on `_check_status`:
backend exceptions are reclassified before reaching the caller. -/
def check_status (dryRun extended : Bool) (jobIds : List String)
    (dl : Except AwsErr (List String)) (pages : Pages)
    (stateOf : String → JobState) (path : String) :
    Except UserReportError (StatusCounts × String × List String × List Event) :=
  handle_aws_error (bodyCheckStatus dryRun extended jobIds dl pages stateOf path)

/-- Boolean infix test on lists, modelling the Python `in` substring test. -/
def listIsInfixOf {α : Type} [DecidableEq α] (needle : List α) : List α → Bool
  | [] => needle.isEmpty
  | x :: xs => needle.isPrefixOf (x :: xs) || listIsInfixOf needle xs

/-- Python `needle in hay` on strings. -/
def strContainsSub (hay needle : String) : Bool :=
  listIsInfixOf needle.toList hay.toList

/-- A CloudFormation stack as the core sees it: name, current status, and
declared outputs. -/
structure StackInfo where
  name : String
  stackStatus : String
  outputs : List (String × String)
  deriving DecidableEq, Repr

/-- A CloudFormation stack event (`resource_status`,
`resource_status_reason`, `logical_resource_id`). -/
structure CfEvent where
  logical_resource_id : String
  resource_status : String
  resource_status_reason : String
  deriving DecidableEq, Repr

/-- `_get_cloudformation_errors` (`aws.py` lines 788-804): scan stack events
for failed resource creation or deletion, skipping cascade-cancellation
noise (`'Resource creation cancelled' in reason`), and format
`'{logical_resource_id}: {reason}'` lines. -/
def get_cloudformation_errors (events : List CfEvent) : List String :=
  (events.filter
    (fun e =>
      (e.resource_status == "CREATE_FAILED" || e.resource_status == "DELETE_FAILED")
        && !(strContainsSub e.resource_status_reason "Resource creation cancelled"))).map
    (fun e => e.logical_resource_id ++ ": " ++ e.resource_status_reason)

/-- Python `'. '.join(messages)`. -/
def joinDot : List String → String
  | [] => ""
  | [m] => m
  | m :: m2 :: rest => m ++ ". " ++ joinDot (m2 :: rest)

/-- The aggregated stack-creation failure message (`aws.py` lines 270-277). -/
def creationFailureMessage (msgs : List String) : String :=
  (if msgs.isEmpty then "Cloudformation stack creation failed for unknown reason."
   else "Cloudformation stack creation failed with error message " ++ joinDot msgs)
    ++ " Please, run elastic-blast delete to remove cloudformation stack with errors"

/-- The duplicate-submission `InputError` message (`aws.py` lines 153-158). -/
def alreadySubmittedMessage (resultsBucket stackName : String) : String :=
  "An ElasticBLAST search that will write results to " ++ resultsBucket
    ++ " has already been submitted (AWS CloudFormation stack " ++ stackName
    ++ ").\nPlease resubmit your search with different value for \"results\" configuration "
    ++ "parameter or delete the previous ElasticBLAST search by running elastic-blast delete."

/-- Environment of the stack-creation path: did the waiter succeed, the
stack status observed after the wait, the stack event history, and the
outputs the created stack declares. -/
structure CreateEnv where
  waiterOk : Bool
  statusAfterWait : String
  events : List CfEvent
  outputs : List (String × String)
  deriving DecidableEq, Repr

/-- The post-`waiter.wait` dispatch of `_init` (`aws.py` lines 255-279):
a `WaiterError` with the stack still `CREATE_IN_PROGRESS` is a timeout;
a `WaiterError` with any other non-`CREATE_COMPLETE` status is a dependency
error carrying the aggregated event diagnostics. -/
def stackCreationWait (cenv : CreateEnv) : Except UserReportError Unit :=
  if cenv.waiterOk then .ok ()
  else if cenv.statusAfterWait = "CREATE_IN_PROGRESS" then
    .error ⟨.TIMEOUT_ERROR, "Cloudforation stack creation has timed out"⟩
  else if cenv.statusAfterWait ≠ "CREATE_COMPLETE" then
    .error ⟨.DEPENDENCY_ERROR, creationFailureMessage (get_cloudformation_errors cenv.events)⟩
  else .ok ()

/-- The loop over `cf_stack.outputs` (`aws.py` lines 293-297): later
entries with the same key overwrite earlier assignments. -/
def lookupOutput (outs : List (String × String)) (k : String) : Option String :=
  outs.foldl (fun acc p => if p.1 == k then some p.2 else acc) none

/-- Result of constructing `ElasticBlastAws`: whether `create_stack` was
invoked, the attached stack, and the queue/job-definition handles read from
the stack outputs. -/
structure InitResult where
  createdStack : Bool
  cfStack : Option StackInfo
  jobQueueName : Option String
  jobDefinitionName : Option String
  deriving DecidableEq, Repr

/-- The stack-output extraction of `_init` (`aws.py` lines 287-307): only
runs outside dry-run on a stack in `CREATE_COMPLETE`; a missing
`JobQueueName` or `JobDefinitionName` output is a fatal dependency error. -/
def readOutputsStep (dryRun : Bool) (stack : Option StackInfo) :
    Except UserReportError (Option String × Option String) :=
  match stack with
  | none => .ok (none, none)
  | some st =>
    if dryRun then .ok (none, none)
    else if st.stackStatus = "CREATE_COMPLETE" then
      match lookupOutput st.outputs "JobQueueName" with
      | none => .error ⟨.DEPENDENCY_ERROR,
          "JobQueueName could not be read from cloudformation stack"⟩
      | some q =>
        match lookupOutput st.outputs "JobDefinitionName" with
        | none => .error ⟨.DEPENDENCY_ERROR,
            "JobDefinitionName could not be read from cloudformation stack"⟩
        | some d => .ok (some q, some d)
    else .ok (none, none)

/-- The create-or-attach logic of `_init` (`aws.py` lines 140-307),
with backend outcomes as parameters: `lookup` is the result of
`cf.Stack(...).stack_status` (`none` when the lookup raises `ClientError`,
i.e. no such stack), and `cenv` describes the stack-creation path. The
infrastructure-parameter assembly (machine properties, subnets, roles) of
lines 166-248 feeds only the creation request and is not modelled.
Returns the trace of mutating calls and either an error or the
initialization result. -/
def elasticBlastInit (dryRun create : Bool) (resultsBucket stackName : String)
    (lookup : Option StackInfo) (cenv : CreateEnv) :
    List Event × Except UserReportError InitResult :=
  if dryRun then ([], .ok ⟨false, none, none, none⟩)
  else
    match lookup with
    | some st =>
      if create then ([], .error ⟨.INPUT_ERROR, alreadySubmittedMessage resultsBucket st.name⟩)
      else
        match readOutputsStep false (some st) with
        | .error e => ([], .error e)
        | .ok (q, d) => ([], .ok ⟨false, some st, q, d⟩)
    | none =>
      if create then
        let tr := [Event.createStack stackName]
        match stackCreationWait cenv with
        | .error e => (tr, .error e)
        | .ok () =>
          let st : StackInfo := ⟨stackName, cenv.statusAfterWait, cenv.outputs⟩
          match readOutputsStep false (some st) with
          | .error e => (tr, .error e)
          | .ok (q, d) => (tr, .ok ⟨true, some st, q, d⟩)
      else ([], .ok ⟨false, none, none, none⟩)

/-- Python dynamic-typing errors observable in `wait_until_done`. -/
inductive PyError where
  | attributeError (msg : String)
  | typeError (msg : String)
  | keyError (msg : String)
  deriving DecidableEq, Repr

/-- The Python value returned by `check_status`: either a bare counts dict
(older `elb/aws.py` variant) or the `(counts, report)` tuple that
`elastic_blast/aws.py` returns. -/
inductive PyVal where
  | pyDict (entries : List (String × Nat))
  | pyTupleDictStr (d : List (String × Nat)) (s : String)
  deriving DecidableEq, Repr

/-- Python attribute access `.values()`: defined on a dict, raises
`AttributeError` on a tuple. -/
def PyVal.values : PyVal → Except PyError (List Nat)
  | .pyDict es => .ok (es.map Prod.snd)
  | .pyTupleDictStr _ _ => .error (.attributeError "tuple object has no attribute values")

/-- Python subscription `value[key]` with a string key: dict lookup
(raising `KeyError` when absent), `TypeError` on a tuple. -/
def PyVal.getItem : PyVal → String → Except PyError Nat
  | .pyDict es, k =>
    match es.lookup k with
    | some v => .ok v
    | none => .error (.keyError k)
  | .pyTupleDictStr _ _, _ =>
    .error (.typeError "tuple indices must be integers or slices, not str")

/-- The dict `_check_status` builds (`aws.py` lines 698-703). -/
def statusDict (c : StatusCounts) : List (String × Nat) :=
  [("pending", c.pending), ("running", c.running),
   ("succeeded", c.succeeded), ("failed", c.failed)]

/-- The Python value produced by `self.check_status()` in
`elastic_blast/aws.py`: `_check_status` returns the tuple `(status, '')`
(line 704), so the caller receives a tuple. -/
def check_status_value (r : StatusCounts × String) : PyVal :=
  .pyTupleDictStr (statusDict r.1) r.2

/-- The `while not done` loop of `wait_until_done` (`aws.py` lines
764-774), with fuel bounding the number of iterations (`.ok none` when the
fuel runs out): compare the previously derived `ndone` against the fixed
`njobs`, otherwise read `succeeded`, `failed` and `running` from the
current status value and poll again. -/
def waitLoop (polls : Nat → StatusCounts × String) (njobs : Nat) :
    PyVal → Nat → Nat → Nat → Except PyError (Option Unit)
  | _, _, _, 0 => .ok none
  | status, ndone, nextPoll, fuel + 1 =>
    if ndone = njobs then .ok (some ())
    else
      match status.getItem "succeeded" with
      | .error e => .error e
      | .ok s =>
        match status.getItem "failed" with
        | .error e => .error e
        | .ok f =>
          match status.getItem "running" with
          | .error e => .error e
          | .ok _ =>
            waitLoop polls njobs (check_status_value (polls nextPoll)) (s + f) (nextPoll + 1) fuel

/-- `wait_until_done` (`aws.py` lines 755-774): in dry-run return at once;
otherwise poll `check_status`, derive `njobs = sum(status.values())` once,
and loop with a fixed 3-second sleep between polls. `polls n` is the result
of the `n`-th `check_status` call. -/
def wait_until_done (dryRun : Bool) (polls : Nat → StatusCounts × String) (fuel : Nat) :
    Except PyError (Option Unit) :=
  if dryRun then .ok (some ())
  else
    let status := check_status_value (polls 0)
    match status.values with
    | .error e => .error e
    | .ok vs => waitLoop polls vs.sum status 0 1 fuel

theorem submitLoop_spec (cfg : SubmitConfig) (h : cfg.dryRun = false) (idOf : Nat → String)
    (l : List String) (i : Nat) :
    submitLoop cfg idOf i l =
      (((List.range' i l.length).zip l).map
          (fun p => .submitJob (jobName cfg.owner cfg.prog cfg.dbLabel p.1) p.2 p.1),
        (List.range' i l.length).map idOf) := by
  induction l generalizing i with
  | nil => simp [submitLoop]
  | cons q rest ih =>
    simp only [submitLoop, ih (i + 1), h, List.length_cons, List.range'_succ,
      List.zip_cons_cons, List.map_cons, Bool.false_eq_true, if_false]

theorem applyEvents_append (store : Store) (l1 l2 : List Event) :
    applyEvents store (l1 ++ l2) = applyEvents (applyEvents store l1) l2 := by
  induction l1 generalizing store with
  | nil => rfl
  | cons e l ih => cases e <;> simp [applyEvents, ih]

theorem applyEvents_no_put (store : Store) (l : List Event) :
    (∀ e ∈ l, ∀ p b, e ≠ .putBlob p b) → applyEvents store l = store := by
  induction l generalizing store with
  | nil => intro _; rfl
  | cons e l ih =>
    intro h
    cases e with
    | putBlob p b => exact absurd rfl (h _ (List.mem_cons_self _ _) p b)
    | submitJob n q i => exact ih store fun x hx => h x (List.mem_cons_of_mem _ hx)
    | getBlob p => exact ih store fun x hx => h x (List.mem_cons_of_mem _ hx)
    | listJobs st p => exact ih store fun x hx => h x (List.mem_cons_of_mem _ hx)
    | describeJobs ids => exact ih store fun x hx => h x (List.mem_cons_of_mem _ hx)
    | createStack n => exact ih store fun x hx => h x (List.mem_cons_of_mem _ hx)

theorem applyEvents_put_singleton (store : Store) (p : String) (b : JsonVal) :
    applyEvents store [.putBlob p b] p = some b := by
  simp [applyEvents]

theorem chunksAux_flatten {α : Type} (fuel : Nat) (l : List α) (h : l.length ≤ fuel) :
    (chunksAux fuel l).flatten = l := by
  induction fuel generalizing l with
  | zero =>
    cases l with
    | nil => rfl
    | cons x xs => simp at h
  | succ fuel ih =>
    cases l with
    | nil => rfl
    | cons x xs =>
      have hlen : ((x :: xs).drop 100).length ≤ fuel := by
        simp only [List.length_drop, List.length_cons]
        simp only [List.length_cons] at h
        omega
      simp only [chunksAux, List.flatten_cons, ih _ hlen, List.take_append_drop]

theorem chunks100_flatten {α : Type} (l : List α) : (chunks100 l).flatten = l :=
  chunksAux_flatten l.length l le_rfl

theorem countP_flatten_sum {α : Type} (p : α → Bool) (L : List (List α)) :
    (L.map (fun b => b.countP p)).sum = (L.flatten).countP p := by
  induction L with
  | nil => rfl
  | cons b L ih =>
    simp only [List.map_cons, List.sum_cons, List.flatten_cons, List.countP_append, ih]

theorem flatten_map_map {α β : Type} (f : α → β) (L : List (List α)) :
    (L.map (List.map f)).flatten = (L.flatten).map f := by
  induction L with
  | nil => rfl
  | cons b L ih => simp only [List.map_cons, List.flatten_cons, List.map_append, ih]

theorem nativeCount_eq_countP (l : List String) (f : String → JobState) (st : JobState) :
    nativeCount ((chunks100 l).map (List.map f)) st = (l.map f).countP (fun s => s == st) := by
  unfold nativeCount
  rw [countP_flatten_sum, flatten_map_map, chunks100_flatten]

theorem countP_pending_split (l : List JobState) :
    l.countP (fun s => s == .SUBMITTED) + l.countP (fun s => s == .PENDING)
      + l.countP (fun s => s == .RUNNABLE) + l.countP (fun s => s == .STARTING)
      = l.countP (fun s => pending_set.contains s) := by
  induction l with
  | nil => rfl
  | cons x xs ih => cases x <;> simp [List.countP_cons, pending_set] at ih ⊢ <;> omega

theorem countP_buckets_total (l : List JobState) :
    l.countP (fun s => pending_set.contains s) + l.countP (fun s => s == .RUNNING)
      + l.countP (fun s => s == .SUCCEEDED) + l.countP (fun s => s == .FAILED)
      = l.length := by
  induction l with
  | nil => rfl
  | cons x xs ih => cases x <;> simp [List.countP_cons, pending_set] at ih ⊢ <;> omega

theorem countP_pair_buckets_total {α : Type} (l : List (α × JobState)) :
    l.countP (fun p => pending_set.contains p.2) + l.countP (fun p => p.2 == .RUNNING)
      + l.countP (fun p => p.2 == .SUCCEEDED) + l.countP (fun p => p.2 == .FAILED)
      = l.length := by
  induction l with
  | nil => rfl
  | cons x xs ih => cases h : x.2 <;> simp [List.countP_cons, pending_set, h] at ih ⊢ <;> omega

theorem listIsInfixOf_eq_true {α : Type} [DecidableEq α] (n : List α) (l : List α) :
    listIsInfixOf n l = true ↔ n <:+: l := by
  induction l with
  | nil => simp [listIsInfixOf, List.isEmpty_iff, List.infix_nil]
  | cons x xs ih =>
    simp [listIsInfixOf, ih, List.infix_cons_iff, List.isPrefixOf_iff_prefix]

theorem toList_append (a b : String) : (a ++ b).toList = a.toList ++ b.toList := by
  simp [String.toList, String.data_append]

theorem strContainsSub_self (n : String) : strContainsSub n n = true := by
  unfold strContainsSub
  rw [listIsInfixOf_eq_true]

theorem strContainsSub_mono_left (a h n : String)
    (hc : strContainsSub h n = true) : strContainsSub (a ++ h) n = true := by
  unfold strContainsSub at hc ⊢
  rw [listIsInfixOf_eq_true] at hc ⊢
  rw [toList_append]
  exact hc.trans (List.suffix_append _ _).isInfix

theorem strContainsSub_mono_right (h t n : String)
    (hc : strContainsSub h n = true) : strContainsSub (h ++ t) n = true := by
  unfold strContainsSub at hc ⊢
  rw [listIsInfixOf_eq_true] at hc ⊢
  rw [toList_append]
  exact hc.trans (List.prefix_append _ _).isInfix

theorem strContainsSub_intro (s t n : String) : strContainsSub (s ++ n ++ t) n = true :=
  strContainsSub_mono_right _ _ _ (strContainsSub_mono_left _ _ _ (strContainsSub_self n))

theorem joinDot_contains (msgs : List String) (m : String) (hm : m ∈ msgs) :
    strContainsSub (joinDot msgs) m = true := by
  induction msgs with
  | nil => cases hm
  | cons m1 rest ih =>
    cases rest with
    | nil =>
      rcases List.mem_singleton.mp hm with rfl
      exact strContainsSub_self m
    | cons m2 rest2 =>
      rcases List.mem_cons.mp hm with rfl | hm2
      · show strContainsSub (m ++ ". " ++ joinDot (m2 :: rest2)) m = true
        exact strContainsSub_mono_right _ _ _
          (strContainsSub_mono_right _ _ _ (strContainsSub_self m))
      · show strContainsSub (m1 ++ ". " ++ joinDot (m2 :: rest2)) m = true
        exact strContainsSub_mono_left _ _ _ (ih hm2)

theorem mem_pyDictKeys (l : List String) (seen : List String) (x : String) :
    x ∈ pyDictKeys seen l ↔ x ∈ l ∧ x ∉ seen := by
  induction l generalizing seen with
  | nil => simp [pyDictKeys]
  | cons y ys ih =>
    by_cases hy : y ∈ seen
    · rw [pyDictKeys, if_pos hy, ih]
      constructor
      · rintro ⟨h1, h2⟩
        exact ⟨List.mem_cons_of_mem _ h1, h2⟩
      · rintro ⟨h1, h2⟩
        rcases List.mem_cons.mp h1 with rfl | h1
        · exact absurd hy h2
        · exact ⟨h1, h2⟩
    · rw [pyDictKeys, if_neg hy]
      constructor
      · intro hx
        rcases List.mem_cons.mp hx with rfl | hx
        · exact ⟨List.mem_cons_self _ _, hy⟩
        · have h3 := (ih (y :: seen)).mp hx
          exact ⟨List.mem_cons_of_mem _ h3.1,
            fun hseen => h3.2 (List.mem_cons_of_mem _ hseen)⟩
      · rintro ⟨h1, h2⟩
        rcases List.mem_cons.mp h1 with rfl | h1
        · exact List.mem_cons_self _ _
        · by_cases hxy : x = y
          · subst hxy
            exact List.mem_cons_self _ _
          · refine List.mem_cons_of_mem _ ((ih (y :: seen)).mpr ⟨h1, fun hx => ?_⟩)
            rcases List.mem_cons.mp hx with h | h
            · exact hxy h
            · exact h2 h

theorem pyDictKeys_nodup (l : List String) (seen : List String) :
    (pyDictKeys seen l).Nodup := by
  induction l generalizing seen with
  | nil => exact List.nodup_nil
  | cons y ys ih =>
    rw [pyDictKeys]
    split
    · exact ih _
    · refine List.nodup_cons.mpr ⟨?_, ih _⟩
      intro hmem
      exact ((mem_pyDictKeys ys (y :: seen) y).mp hmem).2 (List.mem_cons_self _ _)

theorem get_job_ids_nodup (pages : Pages) : (get_job_ids pages).Nodup :=
  pyDictKeys_nodup _ _

theorem mem_get_job_ids (pages : Pages) (k : String) :
    k ∈ get_job_ids pages ↔ k ∈ (allListed pages).map JobSummary.jobId := by
  unfold get_job_ids
  rw [mem_pyDictKeys]
  simp

theorem mem_keys_upsert_self (m : List (String × JobState)) (k : String) (v : JobState) :
    k ∈ (upsert m k v).map Prod.fst := by
  unfold upsert
  split
  next h =>
    obtain ⟨p, hp, hpk⟩ := List.any_eq_true.mp h
    exact List.mem_map.mpr ⟨_, List.mem_map_of_mem _ hp, by simp [hpk]⟩
  next h =>
    simp

theorem mem_keys_upsert_mono (m : List (String × JobState)) (k : String) (v : JobState)
    (k0 : String) (h : k0 ∈ m.map Prod.fst) : k0 ∈ (upsert m k v).map Prod.fst := by
  unfold upsert
  split
  next hc =>
    obtain ⟨p, hp, hpk⟩ := List.mem_map.mp h
    by_cases hb : (p.1 == k) = true
    · have hk0 : k0 = k := by
        rw [← hpk]
        exact eq_of_beq hb
      exact List.mem_map.mpr ⟨_, List.mem_map_of_mem _ hp, by simp [hb, hk0]⟩
    · refine List.mem_map.mpr ⟨_, List.mem_map_of_mem _ hp, ?_⟩
      simp only [hb, if_false, Bool.false_eq_true]
      exact hpk
  next hc =>
    rw [List.map_append]
    exact List.mem_append_left _ h

theorem mem_keys_foldl_upsert (l : List JobSummary) (m : List (String × JobState)) (k : String) :
    (k ∈ m.map Prod.fst ∨ ∃ j ∈ l, j.jobId = k) →
    k ∈ (l.foldl (fun m j => upsert m j.jobId j.status) m).map Prod.fst := by
  induction l generalizing m with
  | nil =>
    rintro (h | ⟨j, hj, _⟩)
    · exact h
    · cases hj
  | cons j l ih =>
    rintro (h | ⟨j2, hj2, hk⟩)
    · exact ih _ (Or.inl (mem_keys_upsert_mono _ _ _ _ h))
    · rcases List.mem_cons.mp hj2 with rfl | hj2
      · subst hk
        exact ih _ (Or.inl (mem_keys_upsert_self _ _ _))
      · exact ih _ (Or.inr ⟨j2, hj2, hk⟩)

theorem mem_keys_jobsDict (pages : Pages) (j : JobSummary) (hj : j ∈ allListed pages) :
    j.jobId ∈ (jobsDict pages).map Prod.fst :=
  mem_keys_foldl_upsert _ _ _ (Or.inr ⟨j, hj, rfl⟩)

theorem listJobsTrace_no_put (pages : Pages) :
    ∀ e ∈ listJobsTrace pages, ∀ p b, e ≠ .putBlob p b := by
  intro e he p b
  unfold listJobsTrace at he
  obtain ⟨sub, hsub, he2⟩ := List.mem_flatten.mp he
  obtain ⟨st, _, rfl⟩ := List.mem_map.mp hsub
  obtain ⟨pg, _, rfl⟩ := List.mem_map.mp he2
  simp

theorem describeTrace_no_put (ids : List String) :
    ∀ e ∈ describeTrace ids, ∀ p b, e ≠ .putBlob p b := by
  intro e he p b
  obtain ⟨batch, _, rfl⟩ := List.mem_map.mp he
  simp

theorem listJobs_mem_trace (pages : Pages) (st : JobState) (hst : st ∈ AWS_BATCH_JOB_STATES)
    (p : Nat) (hp : p < (pages st).length) :
    Event.listJobs st p ∈ listJobsTrace pages := by
  unfold listJobsTrace
  apply List.mem_flatten.mpr
  refine ⟨(List.range (max (pages st).length 1)).map (Event.listJobs st),
    List.mem_map_of_mem _ hst, ?_⟩
  exact List.mem_map_of_mem _ (List.mem_range.mpr (lt_of_lt_of_le hp (le_max_left _ _)))

theorem fallback_store_ledger (pages : Pages) (path : String) (ids2 : List String)
    (store : Store) :
    applyEvents store (fallbackTrace pages path ++ describeTrace ids2) path
      = some (.arr (get_job_ids pages)) := by
  have h1 : applyEvents store (fallbackTrace pages path)
      = fun q => if q = path then some (.arr (get_job_ids pages)) else store q := by
    show applyEvents store
        (.getBlob path :: (listJobsTrace pages
          ++ [.putBlob path (.arr (get_job_ids pages))])) = _
    show applyEvents store
        (listJobsTrace pages ++ [.putBlob path (.arr (get_job_ids pages))]) = _
    rw [applyEvents_append, applyEvents_no_put store _ (listJobsTrace_no_put pages)]
    rfl
  rw [applyEvents_append, h1, applyEvents_no_put _ _ (describeTrace_no_put ids2)]
  simp

/-- C3: for a set of tracked job identities with native states given by
`stateOf`, `check_status` maps SUBMITTED/PENDING/RUNNABLE/STARTING to the
pending bucket, RUNNING to running, SUCCEEDED to succeeded, FAILED to
failed, and the four bucket counts sum to exactly the number of tracked
jobs. -/
theorem check_status_bucket_mapping (jobIds : List String) (stateOf : String → JobState)
    (dl : Except AwsErr (List String)) (pages : Pages) (path : String)
    (h : jobIds ≠ []) :
    bodyCheckStatus false false jobIds dl pages stateOf path =
      .ok (describeCounts jobIds stateOf, "", jobIds, describeTrace jobIds) ∧
    (describeCounts jobIds stateOf).pending
      = (jobIds.map stateOf).countP (fun s => pending_set.contains s) ∧
    (describeCounts jobIds stateOf).running
      = (jobIds.map stateOf).countP (fun s => s == .RUNNING) ∧
    (describeCounts jobIds stateOf).succeeded
      = (jobIds.map stateOf).countP (fun s => s == .SUCCEEDED) ∧
    (describeCounts jobIds stateOf).failed
      = (jobIds.map stateOf).countP (fun s => s == .FAILED) ∧
    (describeCounts jobIds stateOf).pending + (describeCounts jobIds stateOf).running
      + (describeCounts jobIds stateOf).succeeded + (describeCounts jobIds stateOf).failed
      = jobIds.length := by
  have hne : jobIds.isEmpty = false := by
    cases jobIds with
    | nil => exact absurd rfl h
    | cons a l => rfl
  have hpend : (describeCounts jobIds stateOf).pending
      = (jobIds.map stateOf).countP (fun s => pending_set.contains s) := by
    simp only [describeCounts]
    rw [nativeCount_eq_countP, nativeCount_eq_countP, nativeCount_eq_countP,
      nativeCount_eq_countP, countP_pending_split]
  have hrun : (describeCounts jobIds stateOf).running
      = (jobIds.map stateOf).countP (fun s => s == .RUNNING) := by
    simp only [describeCounts]
    rw [nativeCount_eq_countP]
  have hsuc : (describeCounts jobIds stateOf).succeeded
      = (jobIds.map stateOf).countP (fun s => s == .SUCCEEDED) := by
    simp only [describeCounts]
    rw [nativeCount_eq_countP]
  have hfail : (describeCounts jobIds stateOf).failed
      = (jobIds.map stateOf).countP (fun s => s == .FAILED) := by
    simp only [describeCounts]
    rw [nativeCount_eq_countP]
  refine ⟨?_, hpend, hrun, hsuc, hfail, ?_⟩
  · simp [bodyCheckStatus, hne]
  · rw [hpend, hrun, hsuc, hfail, countP_buckets_total, List.length_map]

/-- Witness for C3: three jobs all in native state RUNNABLE yield
pending = 3 and zero in the other buckets. -/
theorem check_status_bucket_mapping_witness :
    bodyCheckStatus false false ["a", "b", "c"] (.ok []) (fun _ => [])
        (fun _ => .RUNNABLE) "p"
      = .ok (⟨3, 0, 0, 0⟩, "", ["a", "b", "c"], describeTrace ["a", "b", "c"]) := by
  have h := (check_status_bucket_mapping ["a", "b", "c"] (fun _ => .RUNNABLE)
    (.ok []) (fun _ => []) "p" (by decide)).1
  rw [h]
  rfl

/-- C5: the `handle_aws_error` wrapper applied to every backend-calling
operation (`_init`, `submit`, `delete`, `_check_status` carry the
decorator) never lets a raw backend exception escape: missing credentials
and access-denied/expired-token client errors become the permissions
category, any other client error the cluster category. -/
theorem handle_aws_error_reclassifies {α : Type} (r : Except AwsErr α) :
    (∃ a, r = .ok a ∧ handle_aws_error r = .ok a) ∨
    (∃ e u, r = .error e ∧ handle_aws_error r = .error u ∧
      u.returncode = (match e with
        | .noCredentialsError _ => ErrCode.PERMISSIONS_ERROR
        | .clientError code _ =>
          if code = "AccessDenied" ∨ code = "RequestExpired" ∨ code = "ExpiredToken"
              ∨ code = "ExpiredTokenException"
          then ErrCode.PERMISSIONS_ERROR
          else ErrCode.CLUSTER_ERROR)) := by
  cases r with
  | ok a => exact .inl ⟨a, rfl, rfl⟩
  | error e =>
    refine .inr ?_
    cases e with
    | noCredentialsError m => exact ⟨_, ⟨.PERMISSIONS_ERROR, m⟩, rfl, rfl, rfl⟩
    | clientError c m =>
      by_cases hc : c = "AccessDenied" ∨ c = "RequestExpired" ∨ c = "ExpiredToken"
          ∨ c = "ExpiredTokenException"
      · refine ⟨.clientError c m, ⟨.PERMISSIONS_ERROR, m⟩, rfl, ?_, ?_⟩
        · simp [handle_aws_error, hc]
        · simp [hc]
      · refine ⟨.clientError c m, ⟨.CLUSTER_ERROR, m⟩, rfl, ?_, ?_⟩
        · simp [handle_aws_error, hc]
        · simp [hc]

/-- C7: with the dry-run flag set, `submit` dispatches nothing and writes
nothing (empty trace, empty job-id list), and `check_status` returns
all-zero bucket counts at once with an empty call trace. -/
theorem dry_run_no_calls (cfg : SubmitConfig) (query_batches : List String)
    (idOf : Nat → String) (extended : Bool) (jobIds : List String)
    (dl : Except AwsErr (List String)) (pages : Pages) (stateOf : String → JobState)
    (path : String) :
    submit { cfg with dryRun := true } query_batches idOf = ([], []) ∧
    bodyCheckStatus true extended jobIds dl pages stateOf path
      = .ok (⟨0, 0, 0, 0⟩, "", jobIds, []) := by
  constructor
  · have hloop : ∀ (l : List String) (i : Nat),
        submitLoop { cfg with dryRun := true } idOf i l = ([], []) := by
      intro l
      induction l with
      | nil => intro i; rfl
      | cons q rest ih => intro i; simp [submitLoop, ih]
    simp [submit, hloop]
  · rfl

/-- C8 (code bug): `wait_until_done` in `elastic_blast/aws.py` calls
`sum(status.values())` on the value returned by `check_status`, but
`check_status` there returns the tuple `(counts, report)`; outside dry-run
the first poll therefore raises `AttributeError` instead of looping until
`succeeded + failed` reaches the job total. -/
theorem wait_until_done_raises (polls : Nat → StatusCounts × String) (fuel : Nat) :
    wait_until_done false polls fuel
      = .error (.attributeError "tuple object has no attribute values") := rfl

/-- C10: `check_status` with `extended=True` (non-dry-run) derives its
bucket counts purely from listing every job in the queue across all native
states: the tracked job-id list, the ledger download outcome and the
describe results do not appear in the result, the counts sum to the number
of distinct listed jobs, and every listed job (submitted by this run or
not) contributes to the counted dict. -/
theorem check_status_extended_spec (pages : Pages) (jobIds : List String)
    (dl : Except AwsErr (List String)) (stateOf : String → JobState) (path : String) :
    bodyCheckStatus false true jobIds dl pages stateOf path =
      .ok (extendedCounts (jobsDict pages),
        extendedReport (extendedCounts (jobsDict pages)), jobIds, listJobsTrace pages) ∧
    ((extendedCounts (jobsDict pages)).pending + (extendedCounts (jobsDict pages)).running
      + (extendedCounts (jobsDict pages)).succeeded
      + (extendedCounts (jobsDict pages)).failed
      = (jobsDict pages).length) ∧
    ((allListed pages).all
      (fun j => ((jobsDict pages).map Prod.fst).contains j.jobId) = true) := by
  refine ⟨rfl, ?_, ?_⟩
  · simpa [extendedCounts] using countP_pair_buckets_total (jobsDict pages)
  · apply List.all_eq_true.mpr
    intro j hj
    exact List.elem_eq_true_of_mem (mem_keys_jobsDict pages j hj)

/-- C1: a non-dry-run `submit` of N query batches (default environment, no
`ELB_NO_SEARCH` truncation) dispatches one job per batch in index order,
records the N returned identities in submission order, and then writes the
ledger blob exactly once, after all units, at the fixed metadata path,
overwriting any prior content there. -/
theorem submit_writes_ledger (cfg : SubmitConfig) (query_batches : List String)
    (idOf : Nat → String) (hdry : cfg.dryRun = false) (hns : cfg.noSearch = false)
    (hdist : ((List.range query_batches.length).map idOf).Pairwise (· ≠ ·)) :
    (submit cfg query_batches idOf).2 = (List.range query_batches.length).map idOf ∧
    (submit cfg query_batches idOf).1 =
      ((List.range query_batches.length).zip query_batches).map
        (fun p => .submitJob (jobName cfg.owner cfg.prog cfg.dbLabel p.1) p.2 p.1)
      ++ [.putBlob (ledgerPath cfg.resultsBucket)
          (.arr ((List.range query_batches.length).map idOf))] ∧
    ∀ store : Store,
      applyEvents store (submit cfg query_batches idOf).1 (ledgerPath cfg.resultsBucket)
        = some (.arr ((List.range query_batches.length).map idOf)) := by
  have harr : List.range query_batches.length = List.range' 0 query_batches.length :=
    List.range_eq_range' _
  have hsub : submit cfg query_batches idOf =
      ((((List.range' 0 query_batches.length).zip query_batches).map
          (fun p => Event.submitJob (jobName cfg.owner cfg.prog cfg.dbLabel p.1) p.2 p.1))
        ++ [Event.putBlob (ledgerPath cfg.resultsBucket)
            (JsonVal.arr ((List.range' 0 query_batches.length).map idOf))],
        (List.range' 0 query_batches.length).map idOf) := by
    unfold submit
    rw [hns]
    simp only [Bool.false_and, Bool.false_eq_true, if_false]
    rw [submitLoop_spec cfg hdry idOf query_batches 0]
    simp only [hdry, Bool.false_eq_true, if_false]
    rfl
  refine ⟨?_, ?_, ?_⟩
  · simp only [hsub, harr]
  · simp only [hsub, harr]
  · intro store
    simp only [hsub, harr]
    rw [applyEvents_append]
    exact applyEvents_put_singleton _ _ _

/-- Witness for C1: three batches with backend ids a, b, c leave exactly
the array a, b, c at the ledger path. -/
theorem submit_writes_ledger_witness :
    (submit ⟨false, "user", "blastp", "nr", "s3://results", false, false⟩
        ["q0", "q1", "q2"] (fun i => ["a", "b", "c"].getD i "")).2
      = ["a", "b", "c"] ∧
    applyEvents (fun _ => none)
        (submit ⟨false, "user", "blastp", "nr", "s3://results", false, false⟩
          ["q0", "q1", "q2"] (fun i => ["a", "b", "c"].getD i "")).1
        (ledgerPath "s3://results")
      = some (.arr ["a", "b", "c"]) := by
  have h := submit_writes_ledger
    ⟨false, "user", "blastp", "nr", "s3://results", false, false⟩
    ["q0", "q1", "q2"] (fun i => ["a", "b", "c"].getD i "") rfl rfl (by decide)
  exact ⟨h.1.trans (by decide), (h.2.2 (fun _ => none)).trans (by decide)⟩

set_option maxRecDepth 8192 in
/-- Counterexample for C9: a database label long enough that, although the
label itself is sanitized and truncated to the scheduler limit, the full
job name assembled around it exceeds the scheduler's maximum job-name
length, so the submitted name does not satisfy the length constraint. -/
theorem job_name_constraints_counterexample :
    (submittedNames (submit ⟨false, "user", "blastn",
        sanitize_aws_batch_job_name (String.mk (List.replicate 130 'a')),
        "s3://res", false, false⟩ ["q0"] (fun _ => "jid")).1).any
      (fun n => decide (AWS_MAX_JOBNAME_LENGTH < n.length)) = true := by decide

/-- C9 (amended): every submitted unit with 0-based index i is named
`elasticblast-{owner}-{prog}-batch-{sanitized-db-label}-job-{i}`, where
only the database label is sanitized (every character replaced by a hyphen
unless an ASCII word character) and truncated to the scheduler's maximum
job-name length; the complete name is not itself re-checked against the
scheduler limits. -/
theorem submit_job_name_format (owner prog db bucket : String)
    (query_batches : List String) (idOf : Nat → String) :
    submittedNames (submit ⟨false, owner, prog, sanitize_aws_batch_job_name db, bucket,
        false, false⟩ query_batches idOf).1
      = (List.range query_batches.length).map
          (fun i => jobName owner prog (sanitize_aws_batch_job_name db) i) ∧
    (sanitize_aws_batch_job_name db).length ≤ AWS_MAX_JOBNAME_LENGTH ∧
    (sanitize_aws_batch_job_name db).toList.all
      (fun c => isPyWordChar c || c == '-') = true := by
  refine ⟨?_, ?_, ?_⟩
  · have hsub := submitLoop_spec
      ⟨false, owner, prog, sanitize_aws_batch_job_name db, bucket, false, false⟩
      rfl idOf query_batches 0
    simp only [submit, upload_job_ids, Bool.false_and, Bool.false_eq_true, if_false, hsub]
    unfold submittedNames
    rw [List.filterMap_append, List.filterMap_map]
    have hcomp : ((fun e => match e with | Event.submitJob n _ _ => some n | _ => none)
        ∘ (fun p : Nat × String =>
            Event.submitJob (jobName owner prog (sanitize_aws_batch_job_name db) p.1)
              p.2 p.1))
        = some ∘ (fun p : Nat × String =>
            jobName owner prog (sanitize_aws_batch_job_name db) p.1) := rfl
    rw [hcomp, List.filterMap_eq_map]
    have hnil : List.filterMap
        (fun e => match e with | Event.submitJob n _ _ => some n | _ => none)
        [Event.putBlob (ledgerPath bucket)
          (JsonVal.arr ((List.range' 0 query_batches.length).map idOf))]
        = [] := rfl
    rw [hnil, List.append_nil, List.range_eq_range']
    have h3 : ((List.range' 0 query_batches.length).zip query_batches).map Prod.fst
        = List.range' 0 query_batches.length :=
      List.map_fst_zip _ _ (by rw [List.length_range'])
    calc ((List.range' 0 query_batches.length).zip query_batches).map
          (fun p => jobName owner prog (sanitize_aws_batch_job_name db) p.1)
        = (((List.range' 0 query_batches.length).zip query_batches).map Prod.fst).map
            (fun i => jobName owner prog (sanitize_aws_batch_job_name db) i) := by
          rw [List.map_map]
          rfl
      _ = (List.range' 0 query_batches.length).map
            (fun i => jobName owner prog (sanitize_aws_batch_job_name db) i) := by
          rw [h3]
  · simp only [sanitize_aws_batch_job_name, String.length_mk, List.length_take]
    exact inf_le_left
  · apply List.all_eq_true.mpr
    intro c hc
    have hc2 : c ∈ (pyStrip db).toList.map
        (fun c => if isPyWordChar c && c ≠ '-' then c else '-') :=
      (List.take_sublist _ _).subset hc
    obtain ⟨c0, _, rfl⟩ := List.mem_map.mp hc2
    by_cases h0 : (isPyWordChar c0 && decide (c0 ≠ '-')) = true
    · rw [if_pos h0, Bool.or_eq_true]
      exact Or.inl ((Bool.and_eq_true _ _).mp h0).1
    · rw [if_neg h0]
      rfl

theorem strContainsSub_trans (a b c : String) (h1 : strContainsSub a b = true)
    (h2 : strContainsSub b c = true) : strContainsSub a c = true := by
  unfold strContainsSub at h1 h2 ⊢
  rw [listIsInfixOf_eq_true] at h1 h2 ⊢
  exact h2.trans h1

/-- C2: when the stack lookup succeeds, constructing the lifecycle manager
with create=True raises a user-facing InputError whose message states that
a search writing results to this location has already been submitted, and
no stack-creation call is made; with create=False the manager attaches to
the existing stack (reading the queue and job-definition handles from its
outputs) without creating a second stack. -/
theorem init_existing_stack (resultsBucket stackName : String) (st : StackInfo)
    (cenv : CreateEnv) (q d : String)
    (hst : st.stackStatus = "CREATE_COMPLETE")
    (hq : lookupOutput st.outputs "JobQueueName" = some q)
    (hd : lookupOutput st.outputs "JobDefinitionName" = some d) :
    elasticBlastInit false true resultsBucket stackName (some st) cenv =
      ([], .error ⟨.INPUT_ERROR, alreadySubmittedMessage resultsBucket st.name⟩) ∧
    strContainsSub (alreadySubmittedMessage resultsBucket st.name)
      "has already been submitted" = true ∧
    elasticBlastInit false false resultsBucket stackName (some st) cenv =
      ([], .ok ⟨false, some st, some q, some d⟩) := by
  refine ⟨rfl, ?_, ?_⟩
  · unfold alreadySubmittedMessage
    apply strContainsSub_mono_right
    apply strContainsSub_mono_right
    apply strContainsSub_mono_right
    apply strContainsSub_mono_left
    rw [show (" has already been submitted (AWS CloudFormation stack " : String)
        = " " ++ "has already been submitted" ++ " (AWS CloudFormation stack " by rfl]
    exact strContainsSub_intro _ _ _
  · simp [elasticBlastInit, readOutputsStep, hst, hq, hd]

/-- Witness for C2: a results location whose CREATE_COMPLETE stack already
exists yields the duplicate-submission InputError on create and an attach
on non-create. -/
theorem init_existing_stack_witness :
    elasticBlastInit false true "s3://r" "elb-1"
        (some ⟨"elb-1", "CREATE_COMPLETE",
          [("JobQueueName", "JQ"), ("JobDefinitionName", "JD")]⟩) ⟨true, "", [], []⟩
      = ([], .error ⟨.INPUT_ERROR, alreadySubmittedMessage "s3://r" "elb-1"⟩) ∧
    elasticBlastInit false false "s3://r" "elb-1"
        (some ⟨"elb-1", "CREATE_COMPLETE",
          [("JobQueueName", "JQ"), ("JobDefinitionName", "JD")]⟩) ⟨true, "", [], []⟩
      = ([], .ok ⟨false, some ⟨"elb-1", "CREATE_COMPLETE",
          [("JobQueueName", "JQ"), ("JobDefinitionName", "JD")]⟩, some "JQ", some "JD"⟩) := by
  have h := init_existing_stack "s3://r" "elb-1"
    ⟨"elb-1", "CREATE_COMPLETE", [("JobQueueName", "JQ"), ("JobDefinitionName", "JD")]⟩
    ⟨true, "", [], []⟩ "JQ" "JD" rfl (by decide) (by decide)
  exact ⟨h.1, h.2.2⟩

/-- C6: when stack creation fails to reach CREATE_COMPLETE within the
bounded wait, the error is the timeout category if the backend still
reports CREATE_IN_PROGRESS; otherwise it is the dependency category and
its message aggregates every failure-event reason that is not cascade
cancellation and tells the user to run elastic-blast delete. -/
theorem init_create_failure (resultsBucket stackName : String) (cenv : CreateEnv)
    (hw : cenv.waiterOk = false) :
    (cenv.statusAfterWait = "CREATE_IN_PROGRESS" →
      elasticBlastInit false true resultsBucket stackName none cenv =
        ([.createStack stackName],
          .error ⟨.TIMEOUT_ERROR, "Cloudforation stack creation has timed out"⟩)) ∧
    (cenv.statusAfterWait ≠ "CREATE_IN_PROGRESS" →
      cenv.statusAfterWait ≠ "CREATE_COMPLETE" →
      elasticBlastInit false true resultsBucket stackName none cenv =
        ([.createStack stackName],
          .error ⟨.DEPENDENCY_ERROR,
            creationFailureMessage (get_cloudformation_errors cenv.events)⟩) ∧
      (∀ ev ∈ cenv.events,
        (ev.resource_status = "CREATE_FAILED" ∨ ev.resource_status = "DELETE_FAILED") →
        strContainsSub ev.resource_status_reason "Resource creation cancelled" = false →
        strContainsSub (creationFailureMessage (get_cloudformation_errors cenv.events))
          ev.resource_status_reason = true) ∧
      strContainsSub (creationFailureMessage (get_cloudformation_errors cenv.events))
        "elastic-blast delete" = true) := by
  constructor
  · intro hip
    simp [elasticBlastInit, stackCreationWait, hw, hip]
  · intro hnip hncc
    refine ⟨?_, ?_, ?_⟩
    · simp [elasticBlastInit, stackCreationWait, hw, hnip, hncc]
    · intro ev hev hfail hnc
      have hline : (ev.logical_resource_id ++ ": " ++ ev.resource_status_reason)
          ∈ get_cloudformation_errors cenv.events := by
        unfold get_cloudformation_errors
        apply List.mem_map_of_mem
        apply List.mem_filter.mpr
        refine ⟨hev, ?_⟩
        rw [hnc]
        rcases hfail with h | h <;> simp [h]
      have hempty : (get_cloudformation_errors cenv.events).isEmpty = false := by
        cases hcase : get_cloudformation_errors cenv.events with
        | nil => rw [hcase] at hline; cases hline
        | cons a l => rfl
      have hmsg : creationFailureMessage (get_cloudformation_errors cenv.events)
          = ("Cloudformation stack creation failed with error message "
              ++ joinDot (get_cloudformation_errors cenv.events))
            ++ " Please, run elastic-blast delete to remove cloudformation stack with errors" := by
        unfold creationFailureMessage
        rw [hempty]
        rfl
      rw [hmsg]
      apply strContainsSub_mono_right
      apply strContainsSub_mono_left
      apply strContainsSub_trans _
        (ev.logical_resource_id ++ ": " ++ ev.resource_status_reason) _
        (joinDot_contains _ _ hline)
      exact strContainsSub_mono_left _ _ _ (strContainsSub_self _)
    · unfold creationFailureMessage
      apply strContainsSub_mono_left
      rw [show (" Please, run elastic-blast delete to remove cloudformation stack with errors"
            : String)
          = " Please, run " ++ "elastic-blast delete"
            ++ " to remove cloudformation stack with errors" by rfl]
      exact strContainsSub_intro _ _ _

/-- Witness for C6: a waiter failure with a single non-cancelled
CREATE_FAILED event whose reason is InsufficientCapacity yields a
DEPENDENCY_ERROR whose message contains InsufficientCapacity and the
elastic-blast delete instruction. -/
theorem init_create_failure_witness :
    elasticBlastInit false true "s3://r" "elb-1" none
        ⟨false, "CREATE_FAILED",
          [⟨"ComputeEnv", "CREATE_FAILED", "InsufficientCapacity"⟩], []⟩
      = ([.createStack "elb-1"],
          .error ⟨.DEPENDENCY_ERROR,
            creationFailureMessage (get_cloudformation_errors
              [⟨"ComputeEnv", "CREATE_FAILED", "InsufficientCapacity"⟩])⟩) ∧
    strContainsSub (creationFailureMessage (get_cloudformation_errors
        [⟨"ComputeEnv", "CREATE_FAILED", "InsufficientCapacity"⟩]))
      "InsufficientCapacity" = true ∧
    strContainsSub (creationFailureMessage (get_cloudformation_errors
        [⟨"ComputeEnv", "CREATE_FAILED", "InsufficientCapacity"⟩]))
      "elastic-blast delete" = true := by
  have h := (init_create_failure "s3://r" "elb-1"
    ⟨false, "CREATE_FAILED",
      [⟨"ComputeEnv", "CREATE_FAILED", "InsufficientCapacity"⟩], []⟩ rfl).2
    (by decide) (by decide)
  exact ⟨h.1,
    h.2.1 ⟨"ComputeEnv", "CREATE_FAILED", "InsufficientCapacity"⟩
      (List.mem_cons_self _ _) (Or.inl rfl) (by decide),
    h.2.2⟩

/-- C4: with an empty in-memory job-id list, a ledger download that fails
with the not-found code 404 makes `check_status` rebuild the job set by
listing every native state of the queue (every continuation page scanned),
de-duplicated by identity, and re-persist that list to the ledger path;
a download failure with any other code propagates unchanged. -/
theorem check_status_ledger_fallback (pages : Pages) (stateOf : String → JobState)
    (path : String) (code msg : String) :
    (code = "404" →
      bodyCheckStatus false false [] (.error (.clientError code msg)) pages stateOf path =
        .ok (describeCounts (get_job_ids pages) stateOf, "", get_job_ids pages,
          fallbackTrace pages path ++ describeTrace (get_job_ids pages)) ∧
      (∀ store : Store,
        applyEvents store
          (fallbackTrace pages path ++ describeTrace (get_job_ids pages)) path
          = some (.arr (get_job_ids pages))) ∧
      (get_job_ids pages).Nodup ∧
      ((allListed pages).all (fun j => (get_job_ids pages).contains j.jobId) = true) ∧
      ((get_job_ids pages).all
        (fun k => (allListed pages).any (fun j => j.jobId == k)) = true) ∧
      (AWS_BATCH_JOB_STATES.all (fun st =>
        (List.range (pages st).length).all
          (fun p => (fallbackTrace pages path).contains (Event.listJobs st p))) = true)) ∧
    (code ≠ "404" →
      bodyCheckStatus false false [] (.error (.clientError code msg)) pages stateOf path =
        .error (.clientError code msg)) := by
  constructor
  · intro h404
    subst h404
    refine ⟨?_, ?_, get_job_ids_nodup pages, ?_, ?_, ?_⟩
    · simp [bodyCheckStatus, load_job_ids_from_aws]
    · intro store
      exact fallback_store_ledger pages path _ store
    · apply List.all_eq_true.mpr
      intro j hj
      exact List.elem_eq_true_of_mem
        ((mem_get_job_ids pages _).mpr (List.mem_map_of_mem _ hj))
    · apply List.all_eq_true.mpr
      intro k hk
      obtain ⟨j, hj, rfl⟩ := List.mem_map.mp ((mem_get_job_ids pages k).mp hk)
      apply List.any_eq_true.mpr
      exact ⟨j, hj, by simp⟩
    · apply List.all_eq_true.mpr
      intro st hst
      apply List.all_eq_true.mpr
      intro p hp
      apply List.elem_eq_true_of_mem
      unfold fallbackTrace
      exact List.mem_cons_of_mem _
        (List.mem_append_left _ (listJobs_mem_trace pages st hst p (List.mem_range.mp hp)))
  · intro hne
    simp [bodyCheckStatus, load_job_ids_from_aws, hne]

/-- Witness for C4: with the ledger absent (code 404) the job set is
recovered from the queue listing and the recovered array is what the
final store holds at the ledger path; a 403 propagates. -/
theorem check_status_ledger_fallback_witness :
    bodyCheckStatus false false [] (.error (.clientError "404" "m"))
        (fun _ => [[⟨"j1", .RUNNING⟩]]) (fun _ => .RUNNING) "p"
      = .ok (describeCounts (get_job_ids (fun _ => [[⟨"j1", .RUNNING⟩]]))
          (fun _ => .RUNNING), "", get_job_ids (fun _ => [[⟨"j1", .RUNNING⟩]]),
          fallbackTrace (fun _ => [[⟨"j1", .RUNNING⟩]]) "p"
            ++ describeTrace (get_job_ids (fun _ => [[⟨"j1", .RUNNING⟩]]))) ∧
    applyEvents (fun _ => none)
        (fallbackTrace (fun _ => [[⟨"j1", .RUNNING⟩]]) "p"
          ++ describeTrace (get_job_ids (fun _ => [[⟨"j1", .RUNNING⟩]]))) "p"
      = some (.arr (get_job_ids (fun _ => [[⟨"j1", .RUNNING⟩]]))) ∧
    bodyCheckStatus false false [] (.error (.clientError "403" "m"))
        (fun _ => [[⟨"j1", .RUNNING⟩]]) (fun _ => .RUNNING) "p"
      = .error (.clientError "403" "m") := by
  have h1 := (check_status_ledger_fallback (fun _ => [[⟨"j1", .RUNNING⟩]])
    (fun _ => .RUNNING) "p" "404" "m").1 rfl
  have h2 := (check_status_ledger_fallback (fun _ => [[⟨"j1", .RUNNING⟩]])
    (fun _ => .RUNNING) "p" "403" "m").2 (by decide)
  exact ⟨h1.1, h1.2.1 (fun _ => none), h2⟩
